import Mathlib

/-!
Shallow embedding of sgnus-k8s/setup-go custom cache layer:
`src/custom/backend.ts` and `src/custom/cache.ts`.

The environment, filesystem and fallible external operations are captured in a
`World` record; each TypeScript function becomes a pure Lean function from a
`World` (and its arguments) to its result together with the list of observable
side effects (`Event`s) it performs.  Thrown JavaScript errors become
`Except.error` values carrying the error class name, since the code
discriminates caught errors by `error.name`.
-/

namespace SetupGo

/-- Outcome of `fs.stat` at a path: a regular file with a byte size, a
directory (or other non-file entry), or a thrown stat error (missing file,
permission failure, ...). -/
inductive StatOutcome where
  | file (size : Nat)
  | dir
  | statFail
deriving DecidableEq, Repr

/-- Observable side effects of the cache operations. -/
inductive Event where
  | statCall (p : String)
  | tempDirCreated
  | mkdirDone
  | storeWrite (p : String)
  | warnStoreFail
  | warnRestoreFail
  | warnSaveFail
  | unlinkAttempt
  | debugUnlinkFail
deriving DecidableEq, Repr

/-- A thrown error: `ValidationError` (class with `name = "ValidationError"`)
or a plain `Error` (`name = "Error"`). -/
inductive CacheError where
  | validation (msg : String)
  | other (msg : String)
deriving DecidableEq, Repr

/-- The `name` property of the thrown error, as checked by the catch block of
`saveCache`. -/
def CacheError.name : CacheError → String
  | .validation _ => "ValidationError"
  | .other _ => "Error"

/-- The external world: environment variables, the filesystem as seen through
`fs.stat`, path resolution, and the success or failure of each fallible
external operation performed by the cache code. -/
structure World where
  ghrunnerCache : Option String
  repo : String
  refName : String
  stat : String → StatOutcome
  resolvePaths : List String → List String
  createTarFails : Bool
  archiveSize : Nat
  downloadFails : Bool
  extractFails : Bool
  mkdirFails : Bool
  copyToStoreFails : Bool
  unlinkFails : Bool

/-- Model of Node `path.join` restricted to the shapes used by the code:
empty segments are dropped, otherwise the segments are joined with "/". -/
def joinPath (a b : String) : String :=
  if a = "" then b else if b = "" then a else a ++ "/" ++ b

/-- `backend.getArchiveLocation`: `undefined` when `GHRUNNER_CACHE` is unset
or empty (JS falsy), otherwise `path.join(cacheTopDir, repo, ref)`. -/
def getArchiveLocation (w : World) : Option String :=
  match w.ghrunnerCache with
  | none => none
  | some top => if top = "" then none else some (joinPath (joinPath top w.repo) w.refName)

/-- `isFeatureAvailable`: the double-negation truthiness of the
`GHRUNNER_CACHE` environment variable. -/
def isFeatureAvailable (w : World) : Bool :=
  match w.ghrunnerCache with
  | none => false
  | some s => if s = "" then false else true

/-- `backend.getCacheFile`: resolves the archive location, stats the blob at
`path.join(archiveLocation, key)`, and reports a hit only for a regular file
of size strictly greater than zero; a stat failure is a miss. -/
def getCacheFile (w : World) (key : String) : Option String × List Event :=
  match getArchiveLocation w with
  | none => (none, [])
  | some loc =>
    let cacheFile := joinPath loc key
    match w.stat cacheFile with
    | .file n => if 0 < n then (some cacheFile, [.statCall cacheFile]) else (none, [.statCall cacheFile])
    | .dir => (none, [.statCall cacheFile])
    | .statFail => (none, [.statCall cacheFile])

/-- `backend.saveCache`: a no-op when the archive location is undefined;
otherwise mkdir then copy into the store, with any failure caught and logged
as a warning (never rethrown). Returns only the performed events. -/
def backendSaveCache (w : World) (key : String) : List Event :=
  match getArchiveLocation w with
  | none => []
  | some loc =>
    let cacheFile := joinPath loc key
    if w.mkdirFails then [.warnStoreFail]
    else if w.copyToStoreFails then [.mkdirDone, .warnStoreFail]
    else [.mkdirDone, .storeWrite cacheFile]

/-- The `ValidationError` thrown by `checkPaths`. -/
def pathValidationError : CacheError :=
  .validation "Path Validation Error: At least one directory or file path is required"

/-- `checkPaths`: rejects an empty path list. -/
def checkPaths (paths : List String) : Except CacheError Unit :=
  if paths.length = 0 then .error pathValidationError else .ok ()

/-- `checkKey`: rejects keys longer than 512 characters and keys containing a
comma (the regex test). -/
def checkKey (key : String) : Except CacheError Unit :=
  if 512 < key.length then
    .error (.validation ("Key Validation Error: " ++ key ++ " cannot be larger than 512 characters."))
  else if key.data.contains ',' then
    .error (.validation ("Key Validation Error: " ++ key ++ " cannot contain commas."))
  else .ok ()

/-- The `for (const key of keys) checkKey(key)` loop of `restoreCache`:
stops at the first key that fails validation. -/
def checkKeys : List String → Except CacheError Unit
  | [] => .ok ()
  | k :: ks =>
    match checkKey k with
    | .error e => .error e
    | .ok _ => checkKeys ks

/-- The archive unlink in the `finally` blocks: the deletion is attempted and
a failure is logged at debug level and swallowed. -/
def unlinkEvents (w : World) : List Event :=
  if w.unlinkFails then [.unlinkAttempt, .debugUnlinkFail] else [.unlinkAttempt]

/-- `CacheFileSizeLimit = 10 * Math.pow(1024, 3)`, 10 GiB in bytes. -/
def CacheFileSizeLimit : Nat := 10 * 1024 ^ 3

/-- `restoreCache`: validates paths, builds `keys = [primaryKey, ...restoreKeys]`,
enforces the 10-key limit, validates every key, then probes the store for the
primary key only; on a hit it downloads and extracts inside a try/catch whose
catch degrades to `undefined` and whose finally unlinks the temp archive. -/
def restoreCache (w : World) (paths : List String) (primaryKey : String)
    (restoreKeys : List String) (lookupOnly : Bool) :
    Except CacheError (Option String) × List Event :=
  match checkPaths paths with
  | .error e => (.error e, [])
  | .ok _ =>
    let keys := primaryKey :: restoreKeys
    if 10 < keys.length then
      (.error (.validation "Key Validation Error: Keys are limited to a maximum of 10."), [])
    else
      match checkKeys keys with
      | .error e => (.error e, [])
      | .ok _ =>
        let gc := getCacheFile w primaryKey
        match gc.1 with
        | none => (.ok none, gc.2)
        | some _cacheFile =>
          if lookupOnly then (.ok (some primaryKey), gc.2)
          else
            let ev := gc.2 ++ [.tempDirCreated]
            if w.downloadFails then
              (.ok none, ev ++ [.warnRestoreFail] ++ unlinkEvents w)
            else if w.extractFails then
              (.ok none, ev ++ [.warnRestoreFail] ++ unlinkEvents w)
            else
              (.ok (some primaryKey), ev ++ unlinkEvents w)

/-- The body of the try block of `saveCache`: createTar, the size-limit check
(throwing a plain `Error` when the archive exceeds `CacheFileSizeLimit`), and
the backend store write. -/
def saveTryBody (w : World) (key : String) : Except CacheError Unit × List Event :=
  if w.createTarFails then
    (.error (.other "createTar failed"), [])
  else if CacheFileSizeLimit < w.archiveSize then
    (.error (.other ("Cache size of " ++ toString w.archiveSize ++ " B is over the "
      ++ toString CacheFileSizeLimit ++ " B limit, not saving cache.")), [])
  else
    (.ok (), backendSaveCache w key)

/-- `saveCache`: validates paths and the key, resolves the paths (throwing a
plain `Error` outside the try when none exist), creates a temp directory,
then runs the try body; the catch rethrows only errors whose `name` is
`"ValidationError"` and otherwise logs a warning leaving `cacheId = -1`; the
finally unlinks the temp archive; on an uncaught pass `cacheId = 1`. -/
def saveCache (w : World) (paths : List String) (key : String) :
    Except CacheError Int × List Event :=
  match checkPaths paths with
  | .error e => (.error e, [])
  | .ok _ =>
    match checkKey key with
    | .error e => (.error e, [])
    | .ok _ =>
      if (w.resolvePaths paths).length = 0 then
        (.error (.other "Path Validation Error: Path(s) specified in the action for caching do(es) not exist, hence no cache is being saved."), [])
      else
        let body := saveTryBody w key
        match body.1 with
        | .ok _ => (.ok 1, [.tempDirCreated] ++ body.2 ++ unlinkEvents w)
        | .error e =>
          if e.name = "ValidationError" then
            (.error e, [.tempDirCreated] ++ body.2 ++ unlinkEvents w)
          else
            (.ok (-1), [.tempDirCreated] ++ body.2 ++ [.warnSaveFail] ++ unlinkEvents w)



/-! ## Concrete worlds used for evaluation -/

/-- A world with `GHRUNNER_CACHE=cache`, `GITHUB_REPOSITORY=r`,
`GITHUB_REF_NAME=m`, where the store holds a non-empty blob under the key
`k2` only, all external operations succeed, and the packaged archive is
empty. -/
def baseWorld : World := {
  ghrunnerCache := some "cache", repo := "r", refName := "m",
  stat := fun p => if p = "cache/r/m/k2" then .file 1 else .statFail,
  resolvePaths := fun ps => ps,
  createTarFails := false, archiveSize := 0,
  downloadFails := false, extractFails := false,
  mkdirFails := false, copyToStoreFails := false, unlinkFails := false }

/-- Like `baseWorld` but the packaged archive measures one byte over the
10 GiB ceiling. -/
def oversizeWorld : World := { baseWorld with archiveSize := CacheFileSizeLimit + 1 }

/-- Like `baseWorld` but the copy of the archive into the store fails. -/
def storeFailWorld : World := { baseWorld with copyToStoreFails := true }

/-- Like `baseWorld` but with `GHRUNNER_CACHE` unset. -/
def noEnvWorld : World := { baseWorld with ghrunnerCache := none }

/-- Like `baseWorld` but the store holds a non-empty blob under the primary
key `k1`. -/
def hitWorld : World :=
  { baseWorld with stat := fun p => if p = "cache/r/m/k1" then .file 1 else .statFail }


/-! ## Helper lemmas -/

/-- Any error produced by checkPaths is a ValidationError. -/
theorem checkPaths_error_name {paths : List String} {e : CacheError}
    (h : checkPaths paths = .error e) : e.name = "ValidationError" := by
  unfold checkPaths at h
  split at h
  · cases h; rfl
  · cases h

/-- Any error produced by checkKey is a ValidationError. -/
theorem checkKey_error_name {k : String} {e : CacheError}
    (h : checkKey k = .error e) : e.name = "ValidationError" := by
  unfold checkKey at h
  split at h
  · cases h; rfl
  · split at h
    · cases h; rfl
    · cases h

/-- Any error produced by the key-checking loop is a ValidationError. -/
theorem checkKeys_error_name {ks : List String} {e : CacheError}
    (h : checkKeys ks = .error e) : e.name = "ValidationError" := by
  induction ks with
  | nil => cases h
  | cons k ks ih =>
    unfold checkKeys at h
    cases hk : checkKey k with
    | error e' => rw [hk] at h; cases h; exact checkKey_error_name hk
    | ok u => rw [hk] at h; exact ih h

/-- An over-long key or a key containing a comma fails checkKey with a ValidationError. -/
theorem checkKey_bad {k : String}
    (h : 512 < k.length ∨ k.data.contains ',' = true) :
    ∃ e, checkKey k = .error e ∧ e.name = "ValidationError" := by
  unfold checkKey
  split
  · exact ⟨_, rfl, rfl⟩
  · rename_i hlen
    rcases h with h | h
    · exact absurd h hlen
    · rw [if_pos h]
      exact ⟨_, rfl, rfl⟩

/-- If any key of the list is over-long or contains a comma, the key-checking loop fails with a ValidationError. -/
theorem checkKeys_error_of_mem {k : String} {ks : List String}
    (hmem : k ∈ ks) (h : 512 < k.length ∨ k.data.contains ',' = true) :
    ∃ e, checkKeys ks = .error e ∧ e.name = "ValidationError" := by
  induction ks with
  | nil => cases hmem
  | cons a as ih =>
    unfold checkKeys
    cases ha : checkKey a with
    | error e' => exact ⟨e', rfl, checkKey_error_name ha⟩
    | ok u =>
      rcases List.mem_cons.mp hmem with rfl | hmem'
      · obtain ⟨e, he, _⟩ := checkKey_bad h
        rw [ha] at he; cases he
      · exact ih hmem'

/-- The finally-block unlink only ever produces the unlink attempt and its debug log. -/
theorem mem_unlinkEvents {e : Event} {w : World} (h : e ∈ unlinkEvents w) :
    e = .unlinkAttempt ∨ e = .debugUnlinkFail := by
  unfold unlinkEvents at h
  split at h <;> simp_all

/-- The finally block always attempts the unlink. -/
theorem unlinkAttempt_mem_unlinkEvents (w : World) :
    Event.unlinkAttempt ∈ unlinkEvents w := by
  unfold unlinkEvents
  split <;> simp

/-- With GHRUNNER_CACHE unset the archive location is undefined. -/
theorem getArchiveLocation_of_unset (w : World) (h : w.ghrunnerCache = none) :
    getArchiveLocation w = none := by
  unfold getArchiveLocation
  rw [h]

/-- When isFeatureAvailable is false the archive location is undefined. -/
theorem location_none_of_unavailable (w : World)
    (h : isFeatureAvailable w = false) : getArchiveLocation w = none := by
  unfold isFeatureAvailable at h
  unfold getArchiveLocation
  cases hg : w.ghrunnerCache with
  | none => rfl
  | some s =>
    rw [hg] at h
    dsimp only at h ⊢
    by_cases hs : s = ""
    · rw [if_pos hs]
    · rw [if_neg hs] at h
      cases h

/-- With no archive location, getCacheFile is a miss with no store access. -/
theorem getCacheFile_of_no_location (w : World) (key : String)
    (h : getArchiveLocation w = none) : getCacheFile w key = (none, []) := by
  unfold getCacheFile
  rw [h]

/-- With an archive location, getCacheFile performs exactly one stat at the joined address. -/
theorem getCacheFile_events (w : World) (key loc : String)
    (hloc : getArchiveLocation w = some loc) :
    (getCacheFile w key).2 = [Event.statCall (joinPath loc key)] := by
  unfold getCacheFile
  rw [hloc]
  dsimp only
  cases w.stat (joinPath loc key) with
  | file n => dsimp only; split <;> rfl
  | dir => rfl
  | statFail => rfl

/-- With no archive location, the backend save is a no-op. -/
theorem backendSaveCache_of_no_location (w : World) (key : String)
    (h : getArchiveLocation w = none) : backendSaveCache w key = [] := by
  unfold backendSaveCache
  rw [h]

/-- The try body of saveCache performs store events only through the backend save. -/
theorem saveTryBody_events (w : World) (key : String) :
    (saveTryBody w key).2 = [] ∨ (saveTryBody w key).2 = backendSaveCache w key := by
  unfold saveTryBody
  split
  · exact .inl rfl
  · split
    · exact .inl rfl
    · exact .inr rfl

/-- A createTar failure aborts the try body before the size check and the store write. -/
theorem saveTryBody_tarFail (w : World) (key : String)
    (htar : w.createTarFails = true) :
    saveTryBody w key = (.error (.other "createTar failed"), []) := by
  unfold saveTryBody
  rw [htar]
  simp only [if_true]

/-- An archive over the size limit makes the try body throw a plain Error before the store write. -/
theorem saveTryBody_capacity (w : World) (key : String)
    (htar : w.createTarFails = false)
    (hsize : CacheFileSizeLimit < w.archiveSize) :
    ∃ msg, saveTryBody w key = (.error (.other msg), []) := by
  refine ⟨"Cache size of " ++ toString w.archiveSize ++ " B is over the "
    ++ toString CacheFileSizeLimit ++ " B limit, not saving cache.", ?_⟩
  unfold saveTryBody
  rw [htar]
  simp only [Bool.false_eq_true, if_false]
  rw [if_pos hsize]

/-- With packaging succeeding and the size within the limit, the try body performs the backend save. -/
theorem saveTryBody_ok (w : World) (key : String)
    (htar : w.createTarFails = false)
    (hsize : ¬ CacheFileSizeLimit < w.archiveSize) :
    saveTryBody w key = (.ok (), backendSaveCache w key) := by
  unfold saveTryBody
  rw [htar]
  simp only [Bool.false_eq_true, if_false]
  rw [if_neg hsize]

/-- Every error thrown inside the try block of saveCache is a plain Error, never a ValidationError. -/
theorem saveTryBody_error_name (w : World) (key : String) {e : CacheError}
    (h : (saveTryBody w key).1 = .error e) : e.name = "Error" := by
  unfold saveTryBody at h
  split at h
  · cases h; rfl
  · split at h
    · cases h; rfl
    · cases h

/-- Reduction of saveCache past its validation and path-resolution stages. -/
theorem saveCache_eq (w : World) (paths : List String) (key : String)
    (hp : checkPaths paths = .ok ()) (hk : checkKey key = .ok ())
    (hres : ¬ (w.resolvePaths paths).length = 0) :
    saveCache w paths key =
      match (saveTryBody w key).1 with
      | .ok _ => (.ok 1, [.tempDirCreated] ++ (saveTryBody w key).2 ++ unlinkEvents w)
      | .error e =>
        if e.name = "ValidationError" then
          (.error e, [.tempDirCreated] ++ (saveTryBody w key).2 ++ unlinkEvents w)
        else
          (.ok (-1), [.tempDirCreated] ++ (saveTryBody w key).2 ++ [.warnSaveFail] ++ unlinkEvents w) := by
  unfold saveCache
  rw [hp, hk]
  dsimp only
  rw [if_neg hres]

/-- Reduction of restoreCache past its validation stage. -/
theorem restoreCache_eq (w : World) (paths : List String) (pk : String)
    (rks : List String) (lo : Bool)
    (hp : checkPaths paths = .ok ())
    (hlen : ¬ 10 < (pk :: rks).length)
    (hks : checkKeys (pk :: rks) = .ok ()) :
    restoreCache w paths pk rks lo =
      match (getCacheFile w pk).1 with
      | none => (.ok none, (getCacheFile w pk).2)
      | some _ =>
        if lo then (.ok (some pk), (getCacheFile w pk).2)
        else
          if w.downloadFails then
            (.ok none, (getCacheFile w pk).2 ++ [.tempDirCreated] ++ [.warnRestoreFail] ++ unlinkEvents w)
          else if w.extractFails then
            (.ok none, (getCacheFile w pk).2 ++ [.tempDirCreated] ++ [.warnRestoreFail] ++ unlinkEvents w)
          else
            (.ok (some pk), (getCacheFile w pk).2 ++ [.tempDirCreated] ++ unlinkEvents w) := by
  unfold restoreCache
  rw [hp]
  dsimp only
  rw [if_neg hlen, hks]

/-- getCacheFile does not depend on the unlink outcome. -/
theorem getCacheFile_unlink_irrelevant (w : World) (b : Bool) (key : String) :
    getCacheFile { w with unlinkFails := b } key = getCacheFile w key := rfl

/-- The try body of saveCache does not depend on the unlink outcome. -/
theorem saveTryBody_unlink_irrelevant (w : World) (b : Bool) (key : String) :
    saveTryBody { w with unlinkFails := b } key = saveTryBody w key := rfl

/-! ## Claims -/

/-- C1: the spec and the code's own doc comment say that restore probes the
backing store for each key in order (primary first, then restore keys) and
that the first key whose blob exists wins. The code only ever probes the
primary key: in a world whose store holds a non-empty blob under the
fallback key `k2` and nothing under the primary key `k1`, restore returns
no-result and never stats the fallback address. -/
theorem restore_never_probes_fallback_keys :
    (getCacheFile baseWorld "k2").1 = some "cache/r/m/k2" ∧
    restoreCache baseWorld ["p"] "k1" ["k2"] false =
      (.ok none, [Event.statCall "cache/r/m/k1"]) ∧
    Event.statCall "cache/r/m/k2" ∉ (restoreCache baseWorld ["p"] "k1" ["k2"] false).2 := by
  refine ⟨rfl, rfl, ?_⟩
  rw [show (restoreCache baseWorld ["p"] "k1" ["k2"] false).2
    = [Event.statCall "cache/r/m/k1"] from rfl]
  simp


/-- C2 counterexample: with an archive one byte over the 10 GiB ceiling,
saveCache does not propagate the capacity error to the caller: it returns
the sentinel -1 after logging a warning (the capacity Error is caught by the
catch block because its name is not ValidationError). -/
theorem save_oversize_swallowed_cex :
    CacheFileSizeLimit < oversizeWorld.archiveSize ∧
    saveCache oversizeWorld ["p"] "k1" =
      (.ok (-1), [Event.tempDirCreated, Event.warnSaveFail, Event.unlinkAttempt]) :=
  ⟨Nat.lt_succ_self _, rfl⟩

/-- C2 (amended): when the packaged archive exceeds `CacheFileSizeLimit`,
saveCache throws a descriptive capacity Error internally, but the catch
block swallows it (it is not a ValidationError): the call returns the
not-saved sentinel -1 with a warning, and the backing store is never
written. -/
theorem save_capacity_caught (w : World) (paths : List String) (key : String)
    (hp : checkPaths paths = .ok ()) (hk : checkKey key = .ok ())
    (hres : ¬ (w.resolvePaths paths).length = 0)
    (htar : w.createTarFails = false)
    (hsize : CacheFileSizeLimit < w.archiveSize) :
    (saveCache w paths key).1 = .ok (-1) ∧
    Event.warnSaveFail ∈ (saveCache w paths key).2 ∧
    ∀ p, Event.storeWrite p ∉ (saveCache w paths key).2 := by
  obtain ⟨msg, hbody⟩ := saveTryBody_capacity w key htar hsize
  rw [saveCache_eq w paths key hp hk hres, hbody]
  dsimp only [CacheError.name]
  rw [if_neg (by simp)]
  refine ⟨rfl, by simp, ?_⟩
  intro p hmem
  simp only [List.append_assoc, List.mem_append, List.mem_singleton, List.mem_cons,
    List.not_mem_nil, or_false, false_or] at hmem
  rcases hmem with h | h | h
  · cases h
  · cases h
  · rcases mem_unlinkEvents h with h' | h' <;> cases h'

/-- C2 witness: the amended statement evaluated in a concrete oversized
world. -/
theorem save_capacity_caught_witness :
    (saveCache oversizeWorld ["p"] "k1").1 = .ok (-1) ∧
    Event.warnSaveFail ∈ (saveCache oversizeWorld ["p"] "k1").2 :=
  let h := save_capacity_caught oversizeWorld ["p"] "k1" rfl rfl
    (fun hh => Nat.one_ne_zero hh) rfl (Nat.lt_succ_self _)
  ⟨h.1, h.2.1⟩


/-- C3: the spec and the code's own comment say a store write failure after
packaging leaves the sentinel -1. The backend swallows its own copy failure,
so saveCache reaches `cacheId = 1` and reports the cache as saved: in a
world where the copy into the store fails, the failure is logged as a
warning, the store is not written, yet saveCache returns 1, not -1. -/
theorem save_store_failure_returns_saved :
    storeFailWorld.copyToStoreFails = true ∧
    saveCache storeFailWorld ["p"] "k1" =
      (.ok 1, [Event.tempDirCreated, Event.mkdirDone, Event.warnStoreFail, Event.unlinkAttempt]) :=
  ⟨rfl, rfl⟩


/-- C4 counterexample: with GHRUNNER_CACHE unset, restoreCache does return
no-result with no directories created, but saveCache returns 1 (not the
not-saved sentinel) and creates a temporary directory. -/
theorem env_unset_cex :
    noEnvWorld.ghrunnerCache = none ∧
    restoreCache noEnvWorld ["p"] "k1" [] false = (.ok none, []) ∧
    saveCache noEnvWorld ["p"] "k1" = (.ok 1, [Event.tempDirCreated, Event.unlinkAttempt]) :=
  ⟨rfl, rfl, rfl⟩

/-- C4 (amended): with GHRUNNER_CACHE unset, restoreCache returns no-result
with no exceptions and no side effects (in particular no directories), and
saveCache raises no exception, never writes the store and never creates a
store directory; but saveCache does create a temporary directory and, when
packaging succeeds, returns cacheId 1 rather than a not-saved sentinel. -/
theorem env_unset_behavior (w : World) (paths : List String) (pk key : String)
    (rks : List String) (lo : Bool)
    (henv : w.ghrunnerCache = none) :
    (checkPaths paths = .ok () → ¬ 10 < (pk :: rks).length →
      checkKeys (pk :: rks) = .ok () →
      restoreCache w paths pk rks lo = (.ok none, [])) ∧
    (checkPaths paths = .ok () → checkKey key = .ok () →
      ¬ (w.resolvePaths paths).length = 0 →
      (∀ e, (saveCache w paths key).1 ≠ .error e) ∧
      (∀ p, Event.storeWrite p ∉ (saveCache w paths key).2) ∧
      Event.mkdirDone ∉ (saveCache w paths key).2 ∧
      Event.tempDirCreated ∈ (saveCache w paths key).2 ∧
      (w.createTarFails = false → ¬ CacheFileSizeLimit < w.archiveSize →
        (saveCache w paths key).1 = .ok 1)) := by
  have hloc := getArchiveLocation_of_unset w henv
  constructor
  · intro hp hlen hks
    rw [restoreCache_eq w paths pk rks lo hp hlen hks,
      getCacheFile_of_no_location w pk hloc]
  · intro hp hk hres
    rw [saveCache_eq w paths key hp hk hres]
    cases htar : w.createTarFails with
    | true =>
      rw [saveTryBody_tarFail w key htar]
      dsimp only [CacheError.name]
      rw [if_neg (by simp)]
      refine ⟨(fun e h => by cases h), ?_, ?_, by simp, (fun h _ => by cases h)⟩
      · intro p hmem
        simp only [List.append_assoc, List.mem_append, List.mem_cons,
          List.not_mem_nil, or_false, false_or, List.mem_singleton] at hmem
        rcases hmem with h | h | h
        · cases h
        · cases h
        · rcases mem_unlinkEvents h with h' | h' <;> cases h'
      · intro hmem
        simp only [List.append_assoc, List.mem_append, List.mem_cons,
          List.not_mem_nil, or_false, false_or, List.mem_singleton] at hmem
        rcases hmem with h | h | h
        · cases h
        · cases h
        · rcases mem_unlinkEvents h with h' | h' <;> cases h'
    | false =>
      by_cases hsize : CacheFileSizeLimit < w.archiveSize
      · obtain ⟨msg, hbody⟩ := saveTryBody_capacity w key htar hsize
        rw [hbody]
        dsimp only [CacheError.name]
        rw [if_neg (by simp)]
        refine ⟨(fun e h => by cases h), ?_, ?_, by simp, fun _ h => absurd hsize h⟩
        · intro p hmem
          simp only [List.append_assoc, List.mem_append, List.mem_cons,
            List.not_mem_nil, or_false, false_or, List.mem_singleton] at hmem
          rcases hmem with h | h | h
          · cases h
          · cases h
          · rcases mem_unlinkEvents h with h' | h' <;> cases h'
        · intro hmem
          simp only [List.append_assoc, List.mem_append, List.mem_cons,
            List.not_mem_nil, or_false, false_or, List.mem_singleton] at hmem
          rcases hmem with h | h | h
          · cases h
          · cases h
          · rcases mem_unlinkEvents h with h' | h' <;> cases h'
      · rw [saveTryBody_ok w key htar hsize,
          backendSaveCache_of_no_location w key hloc]
        refine ⟨(fun e h => by cases h), ?_, ?_, by simp, fun _ _ => rfl⟩
        · intro p hmem
          simp only [List.append_assoc, List.mem_append, List.mem_cons,
            List.not_mem_nil, or_false, false_or, List.mem_singleton] at hmem
          rcases hmem with h | h
          · cases h
          · rcases mem_unlinkEvents h with h' | h' <;> cases h'
        · intro hmem
          simp only [List.append_assoc, List.mem_append, List.mem_cons,
            List.not_mem_nil, or_false, false_or, List.mem_singleton] at hmem
          rcases hmem with h | h
          · cases h
          · rcases mem_unlinkEvents h with h' | h' <;> cases h'

/-- C4 witness: the amended statement evaluated in a concrete world with the
environment unset. -/
theorem env_unset_behavior_witness :
    restoreCache noEnvWorld ["p"] "k1" [] false = (.ok none, []) ∧
    (saveCache noEnvWorld ["p"] "k1").1 = .ok 1 :=
  let h := env_unset_behavior noEnvWorld ["p"] "k1" "k1" [] false rfl
  let hs := h.2 rfl rfl (fun hh => Nat.one_ne_zero hh)
  ⟨h.1 rfl (by decide) rfl, hs.2.2.2.2 rfl (by decide)⟩


/-- C5: for every key longer than 512 characters or containing a comma,
anywhere in the combined restore key list or as the save key, both
restoreCache and saveCache fail with a ValidationError having performed no
side effect at all, so the backing store sees zero calls. -/
theorem bad_key_blocks (w : World) (paths : List String) (pk : String)
    (rks : List String) (lo : Bool) (key : String)
    (hmem : key ∈ pk :: rks)
    (hbad : 512 < key.length ∨ key.data.contains ',' = true) :
    (∃ e, (restoreCache w paths pk rks lo).1 = .error e ∧ e.name = "ValidationError") ∧
    (restoreCache w paths pk rks lo).2 = [] ∧
    (∃ e, (saveCache w paths key).1 = .error e ∧ e.name = "ValidationError") ∧
    (saveCache w paths key).2 = [] := by
  have hrestore :
      (∃ e, (restoreCache w paths pk rks lo).1 = .error e ∧ e.name = "ValidationError") ∧
      (restoreCache w paths pk rks lo).2 = [] := by
    unfold restoreCache
    cases hp : checkPaths paths with
    | error e => exact ⟨⟨e, rfl, checkPaths_error_name hp⟩, rfl⟩
    | ok u =>
      simp only []
      split
      · exact ⟨⟨_, rfl, rfl⟩, rfl⟩
      · obtain ⟨e, he, hname⟩ := checkKeys_error_of_mem hmem hbad
        rw [he]
        exact ⟨⟨e, rfl, hname⟩, rfl⟩
  have hsave :
      (∃ e, (saveCache w paths key).1 = .error e ∧ e.name = "ValidationError") ∧
      (saveCache w paths key).2 = [] := by
    unfold saveCache
    cases hp : checkPaths paths with
    | error e => exact ⟨⟨e, rfl, checkPaths_error_name hp⟩, rfl⟩
    | ok u =>
      simp only []
      obtain ⟨e, he, hname⟩ := checkKey_bad hbad
      rw [he]
      exact ⟨⟨e, rfl, hname⟩, rfl⟩
  exact ⟨hrestore.1, hrestore.2, hsave.1, hsave.2⟩

/-- C5 witness: a key containing a comma, used as the primary restore key
and as the save key, in a concrete world. -/
theorem bad_key_blocks_witness :
    (∃ e, (restoreCache baseWorld ["p"] "a,b" [] false).1 = .error e ∧
      e.name = "ValidationError") ∧
    (∃ e, (saveCache baseWorld ["p"] "a,b").1 = .error e ∧
      e.name = "ValidationError") :=
  let h := bad_key_blocks baseWorld ["p"] "a,b" [] false "a,b"
    (List.Mem.head _) (Or.inr rfl)
  ⟨h.1, h.2.2.1⟩


/-- C6: a restore call with more than 10 combined keys fails with a
ValidationError regardless of the state of the backing store (the world is
universally quantified), and an empty path set makes restoreCache and
saveCache fail identically, with the same ValidationError and no side
effects, before any other work. -/
theorem key_limit_and_empty_paths (w w' : World) (paths : List String)
    (pk pk' key : String) (rks rks' : List String) (lo lo' : Bool) :
    (10 < (pk :: rks).length →
      ∃ e, (restoreCache w paths pk rks lo).1 = .error e ∧ e.name = "ValidationError") ∧
    pathValidationError.name = "ValidationError" ∧
    restoreCache w' [] pk' rks' lo' = (.error pathValidationError, []) ∧
    saveCache w' [] key = (.error pathValidationError, []) := by
  refine ⟨?_, rfl, ?_, ?_⟩
  · intro hlen
    unfold restoreCache
    cases hp : checkPaths paths with
    | error e => exact ⟨e, rfl, checkPaths_error_name hp⟩
    | ok u =>
      rw [if_pos hlen]
      exact ⟨_, rfl, rfl⟩
  · unfold restoreCache checkPaths
    rfl
  · unfold saveCache checkPaths
    rfl

/-- C6 witness: eleven combined keys in a concrete world. -/
theorem key_limit_witness :
    ∃ e, (restoreCache baseWorld ["p"] "k0"
      ["k1", "k2", "k3", "k4", "k5", "k6", "k7", "k8", "k9", "k10"] false).1 = .error e ∧
      e.name = "ValidationError" :=
  (key_limit_and_empty_paths baseWorld baseWorld ["p"] "k0" "k" "k"
    ["k1", "k2", "k3", "k4", "k5", "k6", "k7", "k8", "k9", "k10"] [] false false).1
    (by decide)


/-- C7: the store existence check reports a hit exactly when a regular file
of size strictly greater than zero sits at the probed address; a zero-length
file, a non-file entry and a stat failure are all identically a miss, never
an error (the function is total and returns either the address or none). -/
theorem exists_hit_iff (w : World) (key loc : String)
    (hloc : getArchiveLocation w = some loc) :
    ((getCacheFile w key).1.isSome = true ↔
      ∃ n, w.stat (joinPath loc key) = .file n ∧ 0 < n) ∧
    ((getCacheFile w key).1 = some (joinPath loc key) ∨ (getCacheFile w key).1 = none) ∧
    (getCacheFile w key).2 = [Event.statCall (joinPath loc key)] := by
  unfold getCacheFile
  rw [hloc]
  dsimp only
  cases hstat : w.stat (joinPath loc key) with
  | file n =>
    dsimp only
    by_cases hn : 0 < n
    · rw [if_pos hn]
      exact ⟨⟨fun _ => ⟨n, rfl, hn⟩, fun _ => rfl⟩, .inl rfl, rfl⟩
    · rw [if_neg hn]
      refine ⟨⟨?_, ?_⟩, .inr rfl, rfl⟩
      · intro h; cases h
      · intro h
        obtain ⟨m, hm, hmpos⟩ := h
        cases hm
        exact absurd hmpos hn
  | dir =>
    dsimp only
    refine ⟨⟨?_, ?_⟩, .inr rfl, rfl⟩
    · intro h; cases h
    · intro h
      obtain ⟨m, hm, hmpos⟩ := h
      cases hm
  | statFail =>
    dsimp only
    refine ⟨⟨?_, ?_⟩, .inr rfl, rfl⟩
    · intro h; cases h
    · intro h
      obtain ⟨m, hm, hmpos⟩ := h
      cases hm

/-- C7 witness: the concrete store of `baseWorld` holds a one-byte blob
under `k2`, so the check reports a hit there. -/
theorem exists_hit_iff_witness :
    ((getCacheFile baseWorld "k2").1).isSome = true ∧
    ((getCacheFile baseWorld "nope").1).isSome = false :=
  have h2 := exists_hit_iff baseWorld "k2" "cache/r/m" rfl
  have hn := exists_hit_iff baseWorld "nope" "cache/r/m" rfl
  ⟨h2.1.mpr ⟨1, rfl, Nat.one_pos⟩, by
    cases hm : ((getCacheFile baseWorld "nope").1).isSome
    · rfl
    · obtain ⟨n, hstat, _⟩ := hn.1.mp hm
      cases hstat⟩


/-- C8: on every execution path that reaches the download/extract phase of
restore or the package/store phase of save, the temporary archive is
unlinked; the operation's primary outcome does not depend on whether the
unlink fails, and an unlink failure is only logged at debug level. -/
theorem temp_archive_unlinked (w : World) (paths : List String) (pk key : String)
    (rks : List String)
    (hp : checkPaths paths = .ok ())
    (hlen : ¬ 10 < (pk :: rks).length)
    (hks : checkKeys (pk :: rks) = .ok ())
    (hhit : ((getCacheFile w pk).1).isSome = true)
    (hk : checkKey key = .ok ())
    (hres : ¬ (w.resolvePaths paths).length = 0) :
    Event.unlinkAttempt ∈ (restoreCache w paths pk rks false).2 ∧
    Event.unlinkAttempt ∈ (saveCache w paths key).2 ∧
    (∀ b, (restoreCache { w with unlinkFails := b } paths pk rks false).1 =
      (restoreCache w paths pk rks false).1) ∧
    (∀ b, (saveCache { w with unlinkFails := b } paths key).1 =
      (saveCache w paths key).1) ∧
    (w.unlinkFails = true →
      Event.debugUnlinkFail ∈ (restoreCache w paths pk rks false).2 ∧
      Event.debugUnlinkFail ∈ (saveCache w paths key).2) := by
  obtain ⟨cf, hcf⟩ := Option.isSome_iff_exists.mp hhit
  have hrestore : ∀ w' : World, getCacheFile w' pk = getCacheFile w pk →
      restoreCache w' paths pk rks false =
        if w'.downloadFails then
          (.ok none, (getCacheFile w pk).2 ++ [.tempDirCreated] ++ [.warnRestoreFail] ++ unlinkEvents w')
        else if w'.extractFails then
          (.ok none, (getCacheFile w pk).2 ++ [.tempDirCreated] ++ [.warnRestoreFail] ++ unlinkEvents w')
        else
          (.ok (some pk), (getCacheFile w pk).2 ++ [.tempDirCreated] ++ unlinkEvents w') := by
    intro w' hgc
    rw [restoreCache_eq w' paths pk rks false hp hlen hks, hgc, hcf]
    simp only [Bool.false_eq_true, if_false]
  have hsave : ∀ w' : World, saveTryBody w' key = saveTryBody w key →
      w'.resolvePaths = w.resolvePaths →
      saveCache w' paths key =
        match (saveTryBody w key).1 with
        | .ok _ => (.ok 1, [.tempDirCreated] ++ (saveTryBody w key).2 ++ unlinkEvents w')
        | .error e =>
          if e.name = "ValidationError" then
            (.error e, [.tempDirCreated] ++ (saveTryBody w key).2 ++ unlinkEvents w')
          else
            (.ok (-1), [.tempDirCreated] ++ (saveTryBody w key).2 ++ [.warnSaveFail] ++ unlinkEvents w') := by
    intro w' hbody hrp
    rw [saveCache_eq w' paths key hp hk (by rw [hrp]; exact hres), hbody]
  constructor
  · rw [hrestore w rfl]
    split
    · simp [unlinkAttempt_mem_unlinkEvents]
    · split
      · simp [unlinkAttempt_mem_unlinkEvents]
      · simp [unlinkAttempt_mem_unlinkEvents]
  constructor
  · rw [hsave w rfl rfl]
    split
    · simp [unlinkAttempt_mem_unlinkEvents]
    · split
      · simp [unlinkAttempt_mem_unlinkEvents]
      · simp [unlinkAttempt_mem_unlinkEvents]
  refine ⟨?_, ?_, ?_⟩
  · intro b
    rw [hrestore w rfl, hrestore { w with unlinkFails := b } rfl]
    split
    · rfl
    · split
      · rfl
      · rfl
  · intro b
    rw [hsave w rfl rfl, hsave { w with unlinkFails := b } rfl rfl]
    split
    · rfl
    · split
      · rfl
      · rfl
  · intro hu
    have hmem : Event.debugUnlinkFail ∈ unlinkEvents w := by
      unfold unlinkEvents
      rw [hu]
      simp
    constructor
    · rw [hrestore w rfl]
      split
      · simp [hmem]
      · split
        · simp [hmem]
        · simp [hmem]
    · rw [hsave w rfl rfl]
      split
      · simp [hmem]
      · split
        · simp [hmem]
        · simp [hmem]

/-- C8 witness: in a concrete world with a primary-key hit, both operations
attempt the unlink. -/
theorem temp_archive_unlinked_witness :
    Event.unlinkAttempt ∈ (restoreCache hitWorld ["p"] "k1" [] false).2 ∧
    Event.unlinkAttempt ∈ (saveCache hitWorld ["p"] "k1").2 :=
  let h := temp_archive_unlinked hitWorld ["p"] "k1" "k1" [] rfl
    (by decide) rfl rfl rfl (fun hh => Nat.one_ne_zero hh)
  ⟨h.1, h.2.1⟩


/-- C9: the empty string is a valid cache key: checkKey accepts it, restore
with the empty primary key probes the store at the address derived from the
empty key, and save with the empty key can only fail with a plain Error
(never a ValidationError). -/
theorem empty_key_is_valid (w : World) (paths : List String) (loc : String)
    (hp : checkPaths paths = .ok ())
    (hloc : getArchiveLocation w = some loc) :
    checkKey "" = .ok () ∧
    Event.statCall (joinPath loc "") ∈ (restoreCache w paths "" [] false).2 ∧
    (∀ e, (saveCache w paths "").1 = .error e → e.name = "Error") := by
  have hev := getCacheFile_events w "" loc hloc
  refine ⟨rfl, ?_, ?_⟩
  · rw [restoreCache_eq w paths "" [] false hp (by simp) rfl]
    cases hgc : (getCacheFile w "").1 with
    | none =>
      dsimp only
      rw [hev]
      simp
    | some cf =>
      dsimp only
      simp only [Bool.false_eq_true, if_false]
      split
      · rw [hev]; simp
      · split
        · rw [hev]; simp
        · rw [hev]; simp
  · intro e he
    unfold saveCache at he
    rw [hp] at he
    dsimp only at he
    rw [show checkKey "" = Except.ok () from rfl] at he
    dsimp only at he
    by_cases hres : (w.resolvePaths paths).length = 0
    · rw [if_pos hres] at he
      cases he
      rfl
    · rw [if_neg hres] at he
      cases hbody : (saveTryBody w "").1 with
      | ok u =>
        rw [hbody] at he
        cases he
      | error e' =>
        rw [hbody] at he
        dsimp only at he
        have hname := saveTryBody_error_name w "" hbody
        rw [if_neg (by rw [hname]; simp)] at he
        cases he

/-- C9 witness: the empty key in a concrete world; the probed address is the
archive location itself, as path.join drops the empty segment. -/
theorem empty_key_is_valid_witness :
    joinPath "cache/r/m" "" = "cache/r/m" ∧
    Event.statCall (joinPath "cache/r/m" "") ∈ (restoreCache baseWorld ["p"] "" [] false).2 :=
  ⟨rfl, (empty_key_is_valid baseWorld ["p"] "cache/r/m" rfl rfl).2.1⟩


/-- C10: isFeatureAvailable is true exactly when scope resolution yields a
defined archive location, both being determined solely by GHRUNNER_CACHE
being set and non-empty; whenever it is false, every restore that returns
does so with no-result and no save call ever writes the store. -/
theorem feature_flag_governs_everything (w : World) :
    (isFeatureAvailable w = true ↔ ((getArchiveLocation w).isSome = true)) ∧
    (isFeatureAvailable w = true ↔ ∃ s, w.ghrunnerCache = some s ∧ s ≠ "") ∧
    (isFeatureAvailable w = false →
      (∀ paths pk rks lo r, (restoreCache w paths pk rks lo).1 = .ok r → r = none) ∧
      (∀ paths key p, Event.storeWrite p ∉ (saveCache w paths key).2)) := by
  refine ⟨?_, ?_, ?_⟩
  · unfold isFeatureAvailable getArchiveLocation
    cases w.ghrunnerCache with
    | none => simp
    | some s =>
      dsimp only
      by_cases hs : s = ""
      · rw [if_pos hs, if_pos hs]; simp
      · rw [if_neg hs, if_neg hs]; simp
  · unfold isFeatureAvailable
    cases hg : w.ghrunnerCache with
    | none => simp
    | some s =>
      dsimp only
      by_cases hs : s = ""
      · rw [if_pos hs]
        simp [hs]
      · rw [if_neg hs]
        simp [hs]
  · intro hfeat
    have hloc := location_none_of_unavailable w hfeat
    constructor
    · intro paths pk rks lo r hr
      unfold restoreCache at hr
      cases hp : checkPaths paths with
      | error e => rw [hp] at hr; cases hr
      | ok u =>
        rw [hp] at hr
        dsimp only at hr
        by_cases hlen : 10 < (pk :: rks).length
        · rw [if_pos hlen] at hr
          cases hr
        · rw [if_neg hlen] at hr
          cases hks : checkKeys (pk :: rks) with
          | error e => rw [hks] at hr; cases hr
          | ok u' =>
            rw [hks] at hr
            dsimp only at hr
            rw [getCacheFile_of_no_location w pk hloc] at hr
            dsimp only at hr
            cases hr
            rfl
    · intro paths key p hmem
      unfold saveCache at hmem
      cases hp : checkPaths paths with
      | error e => rw [hp] at hmem; cases hmem
      | ok u =>
        rw [hp] at hmem
        dsimp only at hmem
        cases hk : checkKey key with
        | error e => rw [hk] at hmem; cases hmem
        | ok u' =>
          rw [hk] at hmem
          dsimp only at hmem
          by_cases hres : (w.resolvePaths paths).length = 0
          · rw [if_pos hres] at hmem
            cases hmem
          · rw [if_neg hres] at hmem
            have hbody2 : (saveTryBody w key).2 = [] := by
              rcases saveTryBody_events w key with h | h
              · exact h
              · rw [h, backendSaveCache_of_no_location w key hloc]
            cases hbody : (saveTryBody w key).1 with
            | ok u'' =>
              rw [hbody] at hmem
              dsimp only at hmem
              rw [hbody2] at hmem
              unfold unlinkEvents at hmem
              split at hmem <;> simp_all
            | error e =>
              rw [hbody] at hmem
              dsimp only at hmem
              rw [hbody2] at hmem
              unfold unlinkEvents at hmem
              split at hmem <;> (split at hmem <;> simp_all)

/-- C10 witness: in a concrete world with the environment unset the feature
is unavailable, restore returns no-result and save never writes the store. -/
theorem feature_flag_governs_witness :
    isFeatureAvailable noEnvWorld = false ∧
    Event.storeWrite "cache/r/m/k1" ∉ (saveCache noEnvWorld ["p"] "k1").2 :=
  ⟨rfl, ((feature_flag_governs_everything noEnvWorld).2.2 rfl).2 ["p"] "k1" "cache/r/m/k1"⟩

end SetupGo
